import Mathlib

/-!
Shallow embedding of the message-dispatch and endpoint subsystem of the
vrpn-rs repository (files `src/type_dispatcher.rs`, `src/vrpn_tokio/endpoint_ip.rs`,
`src/endpoint_ip.rs`, `src/async_io/connection_ip.rs`), together with theorems
settling the spec claims about it.

Machine integers (`i32` / `IdType`) are modelled as `Int`; byte strings
(`Bytes`) as `String`. Stateful Rust methods taking `&mut self` become Lean
functions from the old state to the new state (plus their return value).
Handler invocation is made observable by an explicit trace: the list of
handles whose `handle` function ran, in order.
-/

namespace Vrpn

/-- vrpn_rs::types::IdType is i32; modelled as Int. -/
abbrev IdType := Int

structure TypeId where
  val : IdType
deriving DecidableEq, Repr

structure SenderId where
  val : IdType
deriving DecidableEq, Repr

/-- LocalId<T> newtype wrapper (types.rs). -/
structure LocalId (α : Type) where
  id : α
deriving DecidableEq, Repr

/-- RemoteId<T> newtype wrapper (types.rs). -/
structure RemoteId (α : Type) where
  id : α
deriving DecidableEq, Repr

/-- Modelled from the spec: `MAX_VEC_USIZE` lives in types.rs, which is not in
src; spec section 4.3 says the cap is about `i32::MAX - 2`, and `add_sender`
in src/type_dispatcher.rs uses `(IdType::max_value() - 2) as usize`. -/
def MAX_VEC_USIZE : Nat := 2 ^ 31 - 3

/-- Error kinds. `InvalidId`, `TooManyHandlers`, `TooManyMappings`,
`HandlerNotFound` and `OtherMessage` appear in the src files.
`MismatchedName`, `ConnectionClosed` and `SendBufferFull` are modelled from the
spec (section 7), since the `Error` enum itself is not under src. -/
inductive Error where
  | InvalidId (v : IdType)
  | TooManyHandlers
  | TooManyMappings
  | HandlerNotFound
  | MismatchedName
  | SendBufferFull
  | ConnectionClosed
  | OtherMessage (msg : String)
deriving DecidableEq, Repr

/-- handler.rs HandlerCode (handler.rs is not in src; the two variants are
named in src/type_dispatcher.rs and in the spec's design notes). -/
inductive HandlerCode where
  | ContinueProcessing
  | RemoveThisHandler
deriving DecidableEq, Repr

structure MessageHeader where
  message_type : TypeId
  sender : SenderId
deriving DecidableEq, Repr

/-- GenericMessage: header plus raw body bytes (time field omitted; no claim
mentions it). -/
structure GenericMessage where
  header : MessageHeader
  body : List Nat
deriving DecidableEq, Repr

/-- A handler's `handle` capability. Rust handlers are stateful closures; for
the dispatch claims only the outcome on the dispatched message matters, so a
handler is modelled as a function from the message to its result. -/
abbrev Handler := GenericMessage → Except Error HandlerCode

/-- Modelled from the spec: `id_filter_matches` is defined in types.rs (not in
src); per spec section 4.3 a `None` filter matches every sender and `Some f`
matches exactly `f`. -/
def id_filter_matches (filter : Option (LocalId SenderId)) (i : LocalId SenderId) : Bool :=
  match filter with
  | none => true
  | some f => f = i

/-- src/type_dispatcher.rs MsgCallbackEntry. -/
structure MsgCallbackEntry where
  handle : IdType
  handler : Handler
  sender_filter : Option (LocalId SenderId)

/-- MsgCallbackEntry::call: invokes the handler iff the sender filter matches. -/
def MsgCallbackEntry.call (e : MsgCallbackEntry) (msg : GenericMessage) :
    Except Error HandlerCode :=
  if id_filter_matches e.sender_filter ⟨msg.header.sender⟩ then
    e.handler msg
  else
    .ok .ContinueProcessing

/-- src/type_dispatcher.rs CallbackCollection: insertion-ordered slots, each
empty (`None`, left behind by a `RemoveThisHandler` take) or holding an entry,
plus the monotone handle counter. -/
structure CallbackCollection where
  name : String
  callbacks : List (Option MsgCallbackEntry)
  next_handle : IdType

/-- CallbackCollection::new. -/
def CallbackCollection.new (name : String) : CallbackCollection :=
  ⟨name, [], 0⟩

/-- CallbackCollection::add: cap check, append the entry, bump the counter,
return the fresh handle. -/
def CallbackCollection.add (c : CallbackCollection) (handler : Handler)
    (sender : Option (LocalId SenderId)) : Except Error (IdType × CallbackCollection) :=
  if c.callbacks.length > MAX_VEC_USIZE then
    .error .TooManyHandlers
  else
    .ok (c.next_handle,
      ⟨c.name, c.callbacks ++ [some ⟨c.next_handle, handler, sender⟩], c.next_handle + 1⟩)

/-- Slot-list kernel of CallbackCollection::remove: `iter().position(..)` finds
the first slot holding an entry with the given handle, and `Vec::remove` drops
that slot (shifting the rest). `none` means no slot matched. -/
def removeSlots (h : IdType) : List (Option MsgCallbackEntry) →
    Option (List (Option MsgCallbackEntry))
  | [] => none
  | none :: rest => (removeSlots h rest).map (none :: ·)
  | some e :: rest =>
      if e.handle = h then some rest
      else (removeSlots h rest).map (some e :: ·)

/-- CallbackCollection::remove. -/
def CallbackCollection.remove (c : CallbackCollection) (h : IdType) :
    Except Error CallbackCollection :=
  match removeSlots h c.callbacks with
  | some l => .ok ⟨c.name, l, c.next_handle⟩
  | none => .error .HandlerNotFound

/-- Outcome of running a dispatch over a slot list: the slots afterwards (a
`RemoveThisHandler` return empties the slot), the handles whose handler was
invoked, in order, and the first handler error if one occurred. -/
structure CollCallResult where
  slots : List (Option MsgCallbackEntry)
  trace : List IdType
  error : Option Error

/-- Slot-list kernel of CallbackCollection::call: iterate slots in order; for a
live entry whose sender filter matches, invoke the handler; an `Err` from a
handler stops the iteration there (the `?` operator), leaving the remaining
slots untouched; a `RemoveThisHandler` return empties the slot after it runs. -/
def callSlots (msg : GenericMessage) : List (Option MsgCallbackEntry) → CollCallResult
  | [] => ⟨[], [], none⟩
  | none :: rest =>
      let r := callSlots msg rest
      ⟨none :: r.slots, r.trace, r.error⟩
  | some e :: rest =>
      if id_filter_matches e.sender_filter ⟨msg.header.sender⟩ then
        match e.handler msg with
        | .error err => ⟨some e :: rest, [e.handle], some err⟩
        | .ok code =>
            let slot := if code = HandlerCode.RemoveThisHandler then none else some e
            let r := callSlots msg rest
            ⟨slot :: r.slots, e.handle :: r.trace, r.error⟩
      else
        let r := callSlots msg rest
        ⟨some e :: r.slots, r.trace, r.error⟩

/-- CallbackCollection::call: the state afterwards together with the outcome
(`none` = the Rust `Ok(())`). -/
def CallbackCollection.call (c : CallbackCollection) (msg : GenericMessage) :
    CallbackCollection × Option Error :=
  let r := callSlots msg c.callbacks
  (⟨c.name, r.slots, c.next_handle⟩, r.error)

/-- The handles invoked by CallbackCollection::call, in invocation order. -/
def CallbackCollection.callTrace (c : CallbackCollection) (msg : GenericMessage) :
    List IdType :=
  (callSlots msg c.callbacks).trace

/-- Handles of the live entries of a slot list, in slot (= registration) order. -/
def handlesOfSlots (l : List (Option MsgCallbackEntry)) : List IdType :=
  l.filterMap (fun s => s.map (·.handle))

def CallbackCollection.handles (c : CallbackCollection) : List IdType :=
  handlesOfSlots c.callbacks

/-- Handles of the live entries whose sender filter matches the message, in
slot order: exactly the handlers a complete dispatch invokes. -/
def matchingHandles (msg : GenericMessage) (l : List (Option MsgCallbackEntry)) :
    List IdType :=
  l.filterMap (fun s => s.bind (fun e =>
    if id_filter_matches e.sender_filter ⟨msg.header.sender⟩ then some e.handle else none))

/-- Well-formedness of a CallbackCollection, holding in every state reachable
from `new` (proved below): live handles are strictly increasing in slot order
(so in particular pairwise distinct and listed in registration order), and all
below the allocation counter. -/
def CallbackCollection.Wf (c : CallbackCollection) : Prop :=
  c.handles.Pairwise (· < ·) ∧ ∀ h ∈ c.handles, h < c.next_handle

instance (c : CallbackCollection) : Decidable c.Wf := by
  unfold CallbackCollection.Wf
  infer_instance

/-! ## TypeDispatcher (src/type_dispatcher.rs) -/

/-- RegisterMapping<T>. -/
inductive RegisterMapping (α : Type) where
  | Found (v : α)
  | NewMapping (v : α)
deriving DecidableEq, Repr

/-- RegisterMapping::get. -/
def RegisterMapping.get : RegisterMapping α → α
  | .Found v => v
  | .NewMapping v => v

/-- RangedId (types.rs, not in src; the three constructor names and their use
in `message_type_into_index` are in src/type_dispatcher.rs). -/
inductive RangedId where
  | BelowZero (v : IdType)
  | AboveArray (v : IdType)
  | InArray (v : IdType)
deriving DecidableEq, Repr

/-- Modelled from the spec: `determine_id_range` lives in types.rs (not in
src). Per the constructor names and spec section 4.4's range validation, a
negative id is `BelowZero`, an id at or past the array length is `AboveArray`,
and anything else is `InArray`. -/
def determine_id_range (message_type : IdType) (len : Nat) : RangedId :=
  if message_type < 0 then .BelowZero message_type
  else if (len : Int) ≤ message_type then .AboveArray message_type
  else .InArray message_type

/-- src/type_dispatcher.rs message_type_into_index. -/
def message_type_into_index (message_type : IdType) (len : Nat) : Except Error Nat :=
  match determine_id_range message_type len with
  | .BelowZero v => .error (.InvalidId v)
  | .AboveArray v => .error (.InvalidId v)
  | .InArray v => .ok v.toNat

/-- HandlerHandle: the optional type filter plus the per-collection inner
handle. -/
structure HandlerHandle where
  type_filter : Option (LocalId TypeId)
  inner : IdType

/-- Model of std HashMap<Name, LocalId<_>> as an association list: insert
replaces any existing binding for the key; lookup takes the first match. -/
def hashInsert (k : String) (v : α) (m : List (String × α)) : List (String × α) :=
  (k, v) :: m.filter (fun p => p.1 ≠ k)

def hashLookup (k : String) (m : List (String × α)) : Option α :=
  (m.find? (fun p => p.1 = k)).map (·.2)

structure TypeDispatcher where
  types : List CallbackCollection
  types_by_name : List (String × LocalId TypeId)
  generic_callbacks : CallbackCollection
  senders : List String
  senders_by_name : List (String × LocalId SenderId)

/-- Modelled from the spec: the constants module is not in src. Spec section
4.4 names a GENERIC collection, the CONTROL sender and four connection
lifecycle types; the exact byte strings are irrelevant to the claims. -/
def GENERIC : String := "generic"

def CONTROL : String := "Vrpn Control"

def GOT_FIRST_CONNECTION : String := "VRPN_Connection_Got_First_Connection"

def GOT_CONNECTION : String := "VRPN_Connection_Got_Connection"

def DROPPED_CONNECTION : String := "VRPN_Connection_Dropped_Connection"

def DROPPED_LAST_CONNECTION : String := "VRPN_Connection_Dropped_Last_Connection"

/-- TypeDispatcher::get_type_id. -/
def TypeDispatcher.get_type_id (d : TypeDispatcher) (name : String) :
    Option (LocalId TypeId) :=
  hashLookup name d.types_by_name

/-- TypeDispatcher::get_sender_id. -/
def TypeDispatcher.get_sender_id (d : TypeDispatcher) (name : String) :
    Option (LocalId SenderId) :=
  hashLookup name d.senders_by_name

/-- TypeDispatcher::add_type: cap check, push a fresh CallbackCollection, the
new id is the index of the pushed element, record it in the name map. -/
def TypeDispatcher.add_type (d : TypeDispatcher) (name : String) :
    Except Error (LocalId TypeId × TypeDispatcher) :=
  if d.types.length > MAX_VEC_USIZE then
    .error .TooManyMappings
  else
    let types' := d.types ++ [CallbackCollection.new name]
    let id : LocalId TypeId := ⟨⟨(d.types.length : Int)⟩⟩
    .ok (id, { d with types := types', types_by_name := hashInsert name id d.types_by_name })

/-- TypeDispatcher::add_sender. -/
def TypeDispatcher.add_sender (d : TypeDispatcher) (name : String) :
    Except Error (LocalId SenderId × TypeDispatcher) :=
  if d.senders.length > MAX_VEC_USIZE then
    .error .TooManyMappings
  else
    let senders' := d.senders ++ [name]
    let id : LocalId SenderId := ⟨⟨(d.senders.length : Int)⟩⟩
    .ok (id, { d with senders := senders', senders_by_name := hashInsert name id d.senders_by_name })

/-- TypeDispatcher::register_type: lookup-or-insert. -/
def TypeDispatcher.register_type (d : TypeDispatcher) (name : String) :
    Except Error (RegisterMapping (LocalId TypeId) × TypeDispatcher) :=
  match d.get_type_id name with
  | some i => .ok (.Found i, d)
  | none => (d.add_type name).map (fun (id, d') => (.NewMapping id, d'))

/-- TypeDispatcher::register_sender. -/
def TypeDispatcher.register_sender (d : TypeDispatcher) (name : String) :
    Except Error (RegisterMapping (LocalId SenderId) × TypeDispatcher) :=
  match d.get_sender_id name with
  | some i => .ok (.Found i, d)
  | none => (d.add_sender name).map (fun (id, d') => (.NewMapping id, d'))

/-- TypeDispatcher::new: starts empty, then pre-registers the CONTROL sender
and the four connection lifecycle types; each `.expect` cannot fail there. -/
def TypeDispatcher.empty : TypeDispatcher :=
  ⟨[], [], CallbackCollection.new GENERIC, [], []⟩

/-- Unwraps a registration result; Rust's `.expect` panic branch is modelled by
returning the input state, and is unreachable on the inputs `new` uses. -/
def expectRegistered (d : TypeDispatcher)
    (r : Except Error (RegisterMapping α × TypeDispatcher)) : TypeDispatcher :=
  match r with
  | .ok (_, d') => d'
  | .error _ => d

def TypeDispatcher.new : TypeDispatcher :=
  let d0 := TypeDispatcher.empty
  let d1 := expectRegistered d0 (d0.register_sender CONTROL)
  let d2 := expectRegistered d1 (d1.register_type GOT_FIRST_CONNECTION)
  let d3 := expectRegistered d2 (d2.register_type GOT_CONNECTION)
  let d4 := expectRegistered d3 (d3.register_type DROPPED_CONNECTION)
  expectRegistered d4 (d4.register_type DROPPED_LAST_CONNECTION)

instance : Inhabited CallbackCollection := ⟨CallbackCollection.new ""⟩

/-- TypeDispatcher::add_handler, fused with get_type_callbacks_mut: a `Some`
type filter is validated by `message_type_into_index` and routes to the
per-type collection; `None` routes to the generic collection. -/
def TypeDispatcher.add_handler (d : TypeDispatcher) (handler : Handler)
    (message_type_filter : Option (LocalId TypeId))
    (sender_filter : Option (LocalId SenderId)) :
    Except Error (HandlerHandle × TypeDispatcher) :=
  match message_type_filter with
  | some i =>
      match message_type_into_index i.id.val d.types.length with
      | .error e => .error e
      | .ok index =>
          match (d.types.getD index default).add handler sender_filter with
          | .error e => .error e
          | .ok (h, coll') =>
              .ok (⟨some i, h⟩, { d with types := d.types.set index coll' })
  | none =>
      match d.generic_callbacks.add handler sender_filter with
      | .error e => .error e
      | .ok (h, coll') => .ok (⟨none, h⟩, { d with generic_callbacks := coll' })

/-- MessageTypeIdentifier: the static identifier a typed message body
advertises (either a user message name or a reserved system TypeId). -/
inductive MessageTypeIdentifier where
  | UserMessageName (name : String)
  | SystemMessageId (id : TypeId)
deriving DecidableEq, Repr

/-- TypeDispatcher::add_typed_handler, with the handler's static
`MESSAGE_IDENTIFIER` passed explicitly in place of the Rust type parameter. -/
def TypeDispatcher.add_typed_handler (d : TypeDispatcher)
    (message_identifier : MessageTypeIdentifier) (handler : Handler)
    (sender_filter : Option (LocalId SenderId)) :
    Except Error (HandlerHandle × TypeDispatcher) :=
  match
    (match message_identifier with
      | .UserMessageName name =>
          (d.register_type name).map
            (fun (p : RegisterMapping (LocalId TypeId) × TypeDispatcher) => (p.1.get, p.2))
      | .SystemMessageId id => .ok ((⟨id⟩ : LocalId TypeId), d)) with
  | .error e => .error e
  | .ok (message_type, d') => d'.add_handler handler (some message_type) sender_filter

/-- TypeDispatcher::remove_handler. -/
def TypeDispatcher.remove_handler (d : TypeDispatcher) (hh : HandlerHandle) :
    Except Error TypeDispatcher :=
  match hh.type_filter with
  | some i =>
      match message_type_into_index i.id.val d.types.length with
      | .error e => .error e
      | .ok index =>
          match (d.types.getD index default).remove hh.inner with
          | .error e => .error e
          | .ok coll' => .ok { d with types := d.types.set index coll' }
  | none =>
      match d.generic_callbacks.remove hh.inner with
      | .error e => .error e
      | .ok coll' => .ok { d with generic_callbacks := coll' }

/-- Outcome of TypeDispatcher::call: the dispatcher afterwards, the handles
invoked from the generic collection then from the per-type collection (each in
order), and the propagated error if any. -/
structure DispatchResult where
  disp : TypeDispatcher
  genericTrace : List IdType
  typedTrace : List IdType
  error : Option Error

/-- TypeDispatcher::call: validate the message type against `types.len()`,
then run the generic collection; an error there propagates (`?`) without
touching the per-type collection; otherwise run the per-type collection. -/
def TypeDispatcher.call (d : TypeDispatcher) (msg : GenericMessage) : DispatchResult :=
  match message_type_into_index msg.header.message_type.val d.types.length with
  | .error e => ⟨d, [], [], some e⟩
  | .ok index =>
      let g := d.generic_callbacks.call msg
      let gtr := d.generic_callbacks.callTrace msg
      match g.2 with
      | some e => ⟨{ d with generic_callbacks := g.1 }, gtr, [], some e⟩
      | none =>
          let coll := d.types.getD index default
          let t := coll.call msg
          ⟨{ d with generic_callbacks := g.1, types := d.types.set index t.1 }, gtr,
            coll.callTrace msg, t.2⟩

/-! ## Translation tables and EndpointIp (src/vrpn_tokio/endpoint_ip.rs) -/

/-- Modelled from the spec: translation.rs is not in src. Per spec section 3,
a table is a dense array indexed by local id, each slot carrying the name and
the optional remote id bound to it. -/
structure TranslationTable where
  entries : List (String × Option IdType)
deriving DecidableEq, Repr

/-- Modelled from the spec: `add_remote_entry(name, remote, local)` binds the
peer's id to our local id for that name, failing with `MismatchedName` when
the name disagrees with the existing binding for that local id (spec section
4.2); local ids stay contiguous from 0 (spec section 3 invariant 1). -/
def TranslationTable.add_remote_entry (t : TranslationTable) (name : String)
    (remote : IdType) (local_id : IdType) : Except Error TranslationTable :=
  if 0 ≤ local_id ∧ local_id.toNat < t.entries.length then
    let (n, _) := t.entries.getD local_id.toNat ("", none)
    if n = name then .ok ⟨t.entries.set local_id.toNat (n, some remote)⟩
    else .error .MismatchedName
  else if local_id = (t.entries.length : Int) then
    .ok ⟨t.entries ++ [(name, some remote)]⟩
  else
    .error (.InvalidId local_id)

/-- Modelled from the spec: `map_to_local_id(RemoteId)` is a lookup returning
`Result<Option<LocalId>>` (the `Result` wrapping is visible in the src callers,
which match on `Ok`/`Err`); a negative remote id is rejected as an error,
otherwise the table is scanned for the slot bound to that remote id. -/
def TranslationTable.map_to_local_id (t : TranslationTable) (remote : IdType) :
    Except Error (Option IdType) :=
  if remote < 0 then .error (.InvalidId remote)
  else .ok ((t.entries.findIdx? (fun p => p.2 = some remote)).map (fun i => (i : Int)))

structure TranslationTables where
  types : TranslationTable
  senders : TranslationTable
deriving DecidableEq, Repr

/-- SystemMessage variants (endpoint.rs is not in src; the five variants and
their payload uses appear in src/vrpn_tokio/endpoint_ip.rs and the spec's
design notes). Description payloads carry the name and the remote id
(`desc.which`). -/
inductive SystemMessage where
  | SenderDescription (name : String) (which : IdType)
  | TypeDescription (name : String) (which : IdType)
  | UdpDescription
  | LogDescription
  | DisconnectMessage
deriving DecidableEq, Repr

/-- One iteration of the system-message drain loop in
EndpointIp::poll_endpoint (src/vrpn_tokio/endpoint_ip.rs lines 148-184): a
sender/type description registers the name with the dispatcher and records the
remote binding; Udp/Log descriptions and DisconnectMessage only print a log
line, changing no state. -/
def applySystemMessage (d : TypeDispatcher) (t : TranslationTables) :
    SystemMessage → Except Error (TypeDispatcher × TranslationTables)
  | .SenderDescription name which => do
      let (r, d') ← d.register_sender name
      let senders' ← t.senders.add_remote_entry name which r.get.id.val
      .ok (d', { t with senders := senders' })
  | .TypeDescription name which => do
      let (r, d') ← d.register_type name
      let types' ← t.types.add_remote_entry name which r.get.id.val
      .ok (d', { t with types := types' })
  | .UdpDescription => .ok (d, t)
  | .LogDescription => .ok (d, t)
  | .DisconnectMessage => .ok (d, t)

/-- The `while let` drain of the system queue: messages are applied in order;
an error from any of them propagates out of poll_endpoint. -/
def drainSystemQueue (d : TypeDispatcher) (t : TranslationTables) :
    List SystemMessage → Except Error (TypeDispatcher × TranslationTables)
  | [] => .ok (d, t)
  | m :: rest => do
      let (d', t') ← applySystemMessage d t m
      drainSystemQueue d' t' rest

inductive PollUnit where
  | Ready
  | NotReady
deriving DecidableEq, Repr

/-- State of an EndpointIp relevant to poll_endpoint: its translation tables
and the pending system-message queue (the mpsc channel contents). -/
structure EndpointPollState where
  translation : TranslationTables
  system_queue : List SystemMessage
deriving DecidableEq, Repr

/-- EndpointIp::poll_endpoint. The result of `poll_and_dispatch` (defined in
endpoint_channel.rs, not in src) is abstracted as the `streamClosed` argument:
modelled from the spec, it is ready exactly when the stream has ended. The
src code computes `closed` from it first, then drains the system queue, then
returns Ready iff `closed` — nothing in the drain loop (in particular not
`DisconnectMessage`) feeds back into the readiness result. -/
def pollEndpoint (ep : EndpointPollState) (d : TypeDispatcher) (streamClosed : Bool) :
    Except Error (PollUnit × EndpointPollState × TypeDispatcher) := do
  let closed := streamClosed
  let (d', t') ← drainSystemQueue d ep.translation ep.system_queue
  .ok (if closed then .Ready else .NotReady, ⟨t', []⟩, d')

/-- The `match` in EndpointIp::map_to_local_id (and likewise
EndpointIP::local_type_id / local_sender_id in src/endpoint_ip.rs): the result
of the underlying translation-table lookup is collapsed so that any error
becomes `None`. -/
def endpointMapToLocalId (lookupResult : Except Error (Option IdType)) : Option IdType :=
  match lookupResult with
  | .ok val => val
  | .error _ => none

/-- EndpointIp::map_to_local_id composed with the table lookup itself. -/
def EndpointPollState.map_to_local_id (ep : EndpointPollState) (remote : IdType) :
    Option IdType :=
  endpointMapToLocalId (ep.translation.types.map_to_local_id remote)

/-! ## Outgoing buffering (src/vrpn_tokio/endpoint_ip.rs buffer_generic_message) -/

/-- ClassOfService: a bitflag set. Flag values live in types.rs (not in src);
only membership of RELIABLE matters to the claims, so the set is modelled by
its two membership bits. -/
structure ClassOfService where
  reliable : Bool
  low_latency : Bool
deriving DecidableEq, Repr

def ClassOfService.containsReliable (c : ClassOfService) : Bool := c.reliable

/-- Modelled from the spec: EndpointChannel (endpoint_channel.rs, not in src)
wraps the framed stream; its sink either accepts a started send or reports
`AsyncSink::NotReady`, handing the message back, when the send buffer is full
(spec section 5 backpressure). The buffer is modelled as a bounded queue. -/
structure EndpointChannel where
  sendBuffer : List GenericMessage
  capacity : Nat
deriving DecidableEq, Repr

inductive StartSend where
  | Ready
  | NotReady (msg : GenericMessage)
deriving DecidableEq, Repr

def EndpointChannel.start_send (ch : EndpointChannel) (msg : GenericMessage) :
    StartSend × EndpointChannel :=
  if ch.sendBuffer.length < ch.capacity then
    (.Ready, { ch with sendBuffer := ch.sendBuffer ++ [msg] })
  else
    (.NotReady msg, ch)

/-- State of an EndpointIp relevant to buffer_generic_message: the reliable
channel and the (always absent in the source: `Option<()>` only ever `None`)
low-latency channel. -/
structure EndpointBufferState where
  reliable_channel : EndpointChannel
  low_latency_channel : Option Unit
deriving DecidableEq, Repr

/-- EndpointIp::buffer_generic_message: the reliable channel is used when the
class contains RELIABLE or there is no low-latency channel; a full send buffer
becomes `Err(OtherMessage("Didn't have room in send buffer"))` with the
message handed back unsent. The other branch is `unimplemented!()` in the
source (a panic), modelled as a distinguished error. -/
def EndpointBufferState.buffer_generic_message (ep : EndpointBufferState)
    (msg : GenericMessage) (class_of_service : ClassOfService) :
    Except Error EndpointBufferState :=
  if class_of_service.containsReliable || ep.low_latency_channel.isNone then
    match ep.reliable_channel.start_send msg with
    | (.Ready, ch') => .ok { ep with reliable_channel := ch' }
    | (.NotReady _, _) => .error (.OtherMessage "Didn't have room in send buffer")
  else
    .error (.OtherMessage "panic: unimplemented low-latency path")

/-! ## Acceptor world (src/async_io/connection_ip.rs ConnectionIpAcceptor) -/

inductive PollStream where
  | ReadyNone
  | NotReady
deriving DecidableEq, Repr

/-- Joint state of a ConnectionIpAcceptor, its (weakly referenced) connection
and the in-flight handshake tasks it spawned. `connAlive` is whether the weak
back-reference still upgrades; `pending` counts spawned handshake tasks that
have not completed; `endpoints` is the connection's endpoints vector, which
the spawned tasks keep alive through their own Arc clone. -/
structure AcceptorWorld where
  connAlive : Bool
  pending : Nat
  endpoints : List (Option Unit)
deriving DecidableEq, Repr

/-- ConnectionIpAcceptor::poll, for one scheduler invocation during which
`readySockets` sockets are immediately acceptable: the loop first upgrades the
weak back-reference — a broken reference returns `Ready(None)` at once,
spawning nothing and leaving the world unchanged; otherwise each ready socket
gets a handshake task spawned, and the loop ends `NotReady` when the listener
would block. -/
def acceptorPoll (w : AcceptorWorld) (readySockets : Nat) : PollStream × AcceptorWorld :=
  if w.connAlive then
    (.NotReady, { w with pending := w.pending + readySockets })
  else
    (.ReadyNone, w)

/-- Events of the acceptor world: a poll of the acceptor, the drop of the
last strong reference to the connection, or the completion of one in-flight
handshake task. A completing task with a successful handshake pushes a new
endpoint onto the endpoints vector unconditionally — the task captured its own
Arc clone of the vector, so the push happens whether or not the connection is
still alive. A failed handshake is logged and dropped. -/
inductive AccStep where
  | poll (readySockets : Nat)
  | dropConn
  | finishHandshake (success : Bool)
deriving DecidableEq, Repr

def accStep (w : AcceptorWorld) : AccStep → AcceptorWorld
  | .poll n => (acceptorPoll w n).2
  | .dropConn => { w with connAlive := false }
  | .finishHandshake success =>
      if w.pending = 0 then w
      else { w with
        pending := w.pending - 1,
        endpoints := if success then w.endpoints ++ [some ()] else w.endpoints }

def accRun (w : AcceptorWorld) (steps : List AccStep) : AcceptorWorld :=
  steps.foldl accStep w

/-! ## Operation sequences on a CallbackCollection

Used to state the lifetime claims (registration-order dispatch, handle
stability): an arbitrary interleaving of `add`, `remove` and `call`, recording
the handle each successful `add` returns and the trace of each dispatch. -/

inductive CbOp where
  | addOp (handler : Handler) (filter : Option (LocalId SenderId))
  | removeOp (h : IdType)
  | callOp (msg : GenericMessage)

/-- One operation: the collection afterwards, the handle returned if this was
a successful add, and the dispatch trace if this was a call. A failed add or
remove leaves the collection unchanged; a failing call still keeps the slot
updates made before the error, as in the source. -/
def cbStep (c : CallbackCollection) : CbOp → CallbackCollection × Option IdType × List IdType
  | .addOp handler filter =>
      match c.add handler filter with
      | .ok (h, c') => (c', some h, [])
      | .error _ => (c, none, [])
  | .removeOp h =>
      match c.remove h with
      | .ok c' => (c', none, [])
      | .error _ => (c, none, [])
  | .callOp msg => ((c.call msg).1, none, c.callTrace msg)

/-- Run a sequence of operations, collecting every returned add-handle in
order and every dispatch trace in order. -/
def cbRun (c : CallbackCollection) : List CbOp →
    CallbackCollection × List IdType × List (List IdType)
  | [] => (c, [], [])
  | op :: ops =>
      let s := cbStep c op
      let r := cbRun s.1 ops
      (r.1, s.2.1.toList ++ r.2.1,
        match op with
        | .callOp _ => s.2.2 :: r.2.2
        | _ => r.2.2)

/-! ## Lemmas about dispatch over slot lists -/

theorem handlesOfSlots_nil : handlesOfSlots [] = [] := rfl

theorem handlesOfSlots_none_cons (l : List (Option MsgCallbackEntry)) :
    handlesOfSlots (none :: l) = handlesOfSlots l := rfl

theorem handlesOfSlots_some_cons (e : MsgCallbackEntry)
    (l : List (Option MsgCallbackEntry)) :
    handlesOfSlots (some e :: l) = e.handle :: handlesOfSlots l := rfl

theorem handlesOfSlots_append (l₁ l₂ : List (Option MsgCallbackEntry)) :
    handlesOfSlots (l₁ ++ l₂) = handlesOfSlots l₁ ++ handlesOfSlots l₂ :=
  List.filterMap_append _ _ _

theorem mem_handlesOfSlots {e : MsgCallbackEntry} {l : List (Option MsgCallbackEntry)}
    (h : some e ∈ l) : e.handle ∈ handlesOfSlots l := by
  exact List.mem_filterMap.mpr ⟨some e, h, rfl⟩

/-- Every trace of a dispatch is a sublist of the live handles in slot order:
handlers fire in registration order. -/
theorem callSlots_trace_sublist (msg : GenericMessage) :
    ∀ l : List (Option MsgCallbackEntry),
      (callSlots msg l).trace.Sublist (handlesOfSlots l)
  | [] => by simp [callSlots, handlesOfSlots]
  | none :: rest => by
      simpa [callSlots, handlesOfSlots_none_cons] using callSlots_trace_sublist msg rest
  | some e :: rest => by
      rcases hm : id_filter_matches e.sender_filter ⟨msg.header.sender⟩ with _ | _
      · have ih := callSlots_trace_sublist msg rest
        simpa [callSlots, hm, handlesOfSlots_some_cons] using ih.cons e.handle
      · rcases hh : e.handler msg with err | code
        · simp [callSlots, hm, hh, handlesOfSlots_some_cons]
        · have ih := callSlots_trace_sublist msg rest
          simpa [callSlots, hm, hh, handlesOfSlots_some_cons] using ih.cons₂ e.handle

/-- The live handles surviving a dispatch are a sublist of the live handles
before it (a dispatch only ever empties slots). -/
theorem callSlots_slots_sublist (msg : GenericMessage) :
    ∀ l : List (Option MsgCallbackEntry),
      (handlesOfSlots (callSlots msg l).slots).Sublist (handlesOfSlots l)
  | [] => by simp [callSlots, handlesOfSlots]
  | none :: rest => by
      simpa [callSlots, handlesOfSlots_none_cons] using callSlots_slots_sublist msg rest
  | some e :: rest => by
      rcases hm : id_filter_matches e.sender_filter ⟨msg.header.sender⟩ with _ | _
      · have ih := callSlots_slots_sublist msg rest
        simpa [callSlots, hm, handlesOfSlots_some_cons] using ih.cons₂ e.handle
      · rcases hh : e.handler msg with err | code
        · simp [callSlots, hm, hh, handlesOfSlots_some_cons]
        · rcases hc : code with _ | _
          · have ih := callSlots_slots_sublist msg rest
            simpa [callSlots, hm, hh, hc, handlesOfSlots_some_cons] using ih.cons₂ e.handle
          · have ih := callSlots_slots_sublist msg rest
            simpa [callSlots, hm, hh, hc, handlesOfSlots_none_cons] using ih.cons e.handle

theorem matchingHandles_none_cons (msg : GenericMessage)
    (l : List (Option MsgCallbackEntry)) :
    matchingHandles msg (none :: l) = matchingHandles msg l := rfl

theorem matchingHandles_some_cons (msg : GenericMessage) (e : MsgCallbackEntry)
    (l : List (Option MsgCallbackEntry)) :
    matchingHandles msg (some e :: l) =
      if id_filter_matches e.sender_filter ⟨msg.header.sender⟩ then
        e.handle :: matchingHandles msg l
      else matchingHandles msg l := by
  simp only [matchingHandles, List.filterMap_cons, Option.bind_some]
  rcases hm : id_filter_matches e.sender_filter ⟨msg.header.sender⟩ with _ | _ <;> simp [hm]

/-- A dispatch that completes without error invokes exactly the live,
filter-matching handlers, in slot order. -/
theorem callSlots_trace_of_ok (msg : GenericMessage) :
    ∀ l : List (Option MsgCallbackEntry), (callSlots msg l).error = none →
      (callSlots msg l).trace = matchingHandles msg l
  | [], _ => rfl
  | none :: rest, h => by
      simp only [callSlots] at h ⊢
      simpa [matchingHandles_none_cons] using callSlots_trace_of_ok msg rest h
  | some e :: rest, h => by
      rcases hm : id_filter_matches e.sender_filter ⟨msg.header.sender⟩ with _ | _
      · simp only [callSlots, hm] at h ⊢
        simpa [matchingHandles_some_cons, hm] using callSlots_trace_of_ok msg rest h
      · rcases hh : e.handler msg with err | code
        · simp [callSlots, hm, hh] at h
        · simp only [callSlots, hm, hh] at h ⊢
          simp only [matchingHandles_some_cons, hm, if_true]
          simpa using callSlots_trace_of_ok msg rest h

/-- A dispatch that ends in an error has invoked at least one handler (the
erroring one is recorded in the trace). -/
theorem callSlots_trace_ne_nil_of_error (msg : GenericMessage) :
    ∀ l : List (Option MsgCallbackEntry), (callSlots msg l).error ≠ none →
      (callSlots msg l).trace ≠ []
  | [], h => by simp [callSlots] at h
  | none :: rest, h => by
      simp only [callSlots] at h ⊢
      exact callSlots_trace_ne_nil_of_error msg rest h
  | some e :: rest, h => by
      rcases hm : id_filter_matches e.sender_filter ⟨msg.header.sender⟩ with _ | _
      · simp only [callSlots, hm] at h ⊢
        simp only [Bool.false_eq_true, if_false] at h ⊢
        exact callSlots_trace_ne_nil_of_error msg rest h
      · rcases hh : e.handler msg with err | code
        · simp [callSlots, hm, hh]
        · simp [callSlots, hm, hh]

/-! ## Lemmas about removal -/

theorem removeSlots_mem {h : IdType} :
    ∀ {l l' : List (Option MsgCallbackEntry)}, removeSlots h l = some l' →
      h ∈ handlesOfSlots l
  | [], _, hr => by simp [removeSlots] at hr
  | none :: rest, l', hr => by
      simp only [removeSlots, Option.map_eq_some'] at hr
      obtain ⟨r', hr', _⟩ := hr
      simpa [handlesOfSlots_none_cons] using removeSlots_mem hr'
  | some e :: rest, l', hr => by
      by_cases he : e.handle = h
      · simp [handlesOfSlots_some_cons, he]
      · simp only [removeSlots, he, if_false, Option.map_eq_some'] at hr
        obtain ⟨r', hr', _⟩ := hr
        simpa [handlesOfSlots_some_cons] using Or.inr (removeSlots_mem hr')

theorem removeSlots_handles_sublist {h : IdType} :
    ∀ {l l' : List (Option MsgCallbackEntry)}, removeSlots h l = some l' →
      (handlesOfSlots l').Sublist (handlesOfSlots l)
  | [], _, hr => by simp [removeSlots] at hr
  | none :: rest, l', hr => by
      simp only [removeSlots, Option.map_eq_some'] at hr
      obtain ⟨r', hr', rfl⟩ := hr
      simpa [handlesOfSlots_none_cons] using removeSlots_handles_sublist hr'
  | some e :: rest, l', hr => by
      by_cases he : e.handle = h
      · simp only [removeSlots, he, if_true] at hr
        cases hr
        rw [handlesOfSlots_some_cons]
        exact (List.Sublist.refl _).cons e.handle
      · simp only [removeSlots, he, if_false, Option.map_eq_some'] at hr
        obtain ⟨r', hr', rfl⟩ := hr
        simpa [handlesOfSlots_some_cons] using
          (removeSlots_handles_sublist hr').cons₂ e.handle

/-- Removing a handle from a collection with pairwise-increasing (hence
distinct) handles eliminates it completely. -/
theorem removeSlots_not_mem {h : IdType} :
    ∀ {l l' : List (Option MsgCallbackEntry)},
      (handlesOfSlots l).Pairwise (· < ·) → removeSlots h l = some l' →
      h ∉ handlesOfSlots l'
  | [], _, _, hr => by simp [removeSlots] at hr
  | none :: rest, l', hp, hr => by
      simp only [removeSlots, Option.map_eq_some'] at hr
      obtain ⟨r', hr', rfl⟩ := hr
      rw [handlesOfSlots_none_cons] at hp
      simpa [handlesOfSlots_none_cons] using removeSlots_not_mem hp hr'
  | some e :: rest, l', hp, hr => by
      rw [handlesOfSlots_some_cons, List.pairwise_cons] at hp
      by_cases he : e.handle = h
      · simp only [removeSlots, he, if_true] at hr
        cases hr
        intro hmem
        exact absurd (he ▸ hp.1 h hmem) (lt_irrefl h)
      · simp only [removeSlots, he, if_false, Option.map_eq_some'] at hr
        obtain ⟨r', hr', rfl⟩ := hr
        rw [handlesOfSlots_some_cons]
        intro hmem
        rcases List.mem_cons.mp hmem with heq | hmem'
        · exact he heq.symm
        · exact removeSlots_not_mem hp.2 hr' hmem'

/-! ## Well-formedness preservation -/

theorem wf_new (name : String) : (CallbackCollection.new name).Wf := by
  constructor <;> simp [CallbackCollection.new, CallbackCollection.handles, handlesOfSlots]

/-- A successful add returns exactly the current counter, bumps it, and
appends the new live handle at the end. -/
theorem add_ok_spec {c : CallbackCollection} {f : Handler}
    {s : Option (LocalId SenderId)} {h : IdType} {c' : CallbackCollection}
    (hadd : c.add f s = .ok (h, c')) :
    h = c.next_handle ∧ c'.next_handle = c.next_handle + 1 ∧
      c'.handles = c.handles ++ [c.next_handle] := by
  unfold CallbackCollection.add at hadd
  by_cases hlen : c.callbacks.length > MAX_VEC_USIZE
  · simp [hlen] at hadd
  · simp only [hlen, if_false] at hadd
    cases hadd
    refine ⟨rfl, rfl, ?_⟩
    simp [CallbackCollection.handles, handlesOfSlots_append, handlesOfSlots_some_cons,
      handlesOfSlots_nil]

theorem wf_add {c : CallbackCollection} {f : Handler} {s : Option (LocalId SenderId)}
    {h : IdType} {c' : CallbackCollection} (hWf : c.Wf) (hadd : c.add f s = .ok (h, c')) :
    c'.Wf := by
  obtain ⟨-, hn, hh⟩ := add_ok_spec hadd
  obtain ⟨hp, hb⟩ := hWf
  constructor
  · rw [hh]
    rw [List.pairwise_append]
    refine ⟨hp, List.pairwise_singleton _ _, ?_⟩
    intro a ha b hb'
    rw [List.mem_singleton] at hb'
    subst hb'
    exact hb a ha
  · intro x hx
    rw [hh] at hx
    rcases List.mem_append.mp hx with hx | hx
    · exact hn ▸ lt_trans (hb x hx) (lt_add_one _)
    · rw [List.mem_singleton] at hx
      subst hx
      exact hn ▸ lt_add_one _

theorem remove_ok_spec {c : CallbackCollection} {h : IdType} {c' : CallbackCollection}
    (hWf : c.Wf) (hrem : c.remove h = .ok c') :
    c'.Wf ∧ h ∉ c'.handles ∧ h < c'.next_handle ∧
      (c'.handles).Sublist c.handles := by
  unfold CallbackCollection.remove at hrem
  cases hr : removeSlots h c.callbacks with
  | none => simp [hr] at hrem
  | some l =>
      rw [hr] at hrem
      cases hrem
      obtain ⟨hp, hb⟩ := hWf
      have hsub : (handlesOfSlots l).Sublist c.handles := removeSlots_handles_sublist hr
      refine ⟨⟨hp.sublist hsub, fun x hx => hb x (hsub.mem hx)⟩,
        removeSlots_not_mem hp hr, hb h (removeSlots_mem hr), hsub⟩

theorem call_spec {c : CallbackCollection} (msg : GenericMessage) (hWf : c.Wf) :
    ((c.call msg).1).Wf ∧ (c.call msg).1.next_handle = c.next_handle ∧
      ((c.call msg).1.handles).Sublist c.handles ∧
      (c.callTrace msg).Sublist c.handles := by
  obtain ⟨hp, hb⟩ := hWf
  have hsub : ((c.call msg).1.handles).Sublist c.handles :=
    callSlots_slots_sublist msg c.callbacks
  exact ⟨⟨hp.sublist hsub, fun x hx => hb x (hsub.mem hx)⟩, rfl, hsub,
    callSlots_trace_sublist msg c.callbacks⟩

/-! ## Lifetime invariants over operation sequences -/

/-- A handle that has been retired: no live entry carries it and the counter
has moved past it, so no later add can mint it again. -/
def Retired (c : CallbackCollection) (h : IdType) : Prop :=
  h ∉ c.handles ∧ h < c.next_handle

theorem remove_next_eq {c : CallbackCollection} {h : IdType} {c' : CallbackCollection}
    (hrem : c.remove h = .ok c') : c'.next_handle = c.next_handle := by
  unfold CallbackCollection.remove at hrem
  cases hr : removeSlots h c.callbacks <;> rw [hr] at hrem
  · simp at hrem
  · cases hrem
    rfl

theorem cbStep_preserves (c : CallbackCollection) (op : CbOp) (hWf : c.Wf) :
    (cbStep c op).1.Wf ∧ c.next_handle ≤ (cbStep c op).1.next_handle := by
  cases op with
  | addOp f s =>
      cases hadd : c.add f s with
      | ok p =>
          obtain ⟨h0, c0⟩ := p
          obtain ⟨-, hn, -⟩ := add_ok_spec hadd
          refine ⟨by simpa [cbStep, hadd] using wf_add hWf hadd, ?_⟩
          simp only [cbStep, hadd]
          rw [hn]
          exact le_of_lt (lt_add_one _)
      | error e => exact ⟨by simpa [cbStep, hadd] using hWf, by simp [cbStep, hadd]⟩
  | removeOp h =>
      cases hrem : c.remove h with
      | ok c' =>
          obtain ⟨hWf', -, -, -⟩ := remove_ok_spec hWf hrem
          exact ⟨by simpa [cbStep, hrem] using hWf',
            by simp [cbStep, hrem, remove_next_eq hrem]⟩
      | error e => exact ⟨by simpa [cbStep, hrem] using hWf, by simp [cbStep, hrem]⟩
  | callOp msg =>
      obtain ⟨hWf', hn, -, -⟩ := call_spec msg hWf
      exact ⟨by simpa [cbStep] using hWf', by simp [cbStep, hn]⟩

theorem cbStep_retired (c : CallbackCollection) (op : CbOp) {h : IdType}
    (hWf : c.Wf) (hret : Retired c h) :
    Retired (cbStep c op).1 h ∧ h ∉ (cbStep c op).2.2 := by
  obtain ⟨hmem, hlt⟩ := hret
  cases op with
  | addOp f s =>
      cases hadd : c.add f s with
      | ok p =>
          obtain ⟨h0, c0⟩ := p
          obtain ⟨-, hn, hh⟩ := add_ok_spec hadd
          refine ⟨⟨?_, ?_⟩, by simp [cbStep, hadd]⟩
          · simp only [cbStep, hadd]
            rw [hh]
            intro hx
            rcases List.mem_append.mp hx with hx | hx
            · exact hmem hx
            · rw [List.mem_singleton] at hx
              exact absurd hx (ne_of_lt hlt)
          · simp only [cbStep, hadd]
            rw [hn]
            exact lt_trans hlt (lt_add_one _)
      | error e => exact ⟨⟨by simpa [cbStep, hadd], by simpa [cbStep, hadd]⟩,
          by simp [cbStep, hadd]⟩
  | removeOp h' =>
      cases hrem : c.remove h' with
      | ok c' =>
          obtain ⟨-, -, -, hsub⟩ := remove_ok_spec hWf hrem
          refine ⟨⟨?_, ?_⟩, by simp [cbStep, hrem]⟩
          · simp only [cbStep, hrem]
            exact fun hx => hmem (hsub.mem hx)
          · simp only [cbStep, hrem]
            rw [remove_next_eq hrem]
            exact hlt
      | error e => exact ⟨⟨by simpa [cbStep, hrem], by simpa [cbStep, hrem]⟩,
          by simp [cbStep, hrem]⟩
  | callOp msg =>
      obtain ⟨-, hn, hsub, htr⟩ := call_spec msg hWf
      refine ⟨⟨?_, ?_⟩, ?_⟩
      · simp only [cbStep]
        exact fun hx => hmem (hsub.mem hx)
      · simp only [cbStep]
        rw [hn]
        exact hlt
      · simp only [cbStep]
        exact fun hx => hmem (htr.mem hx)

/-- A retired handle never shows up in any dispatch trace of any later
operation sequence. -/
theorem cbRun_retired (h : IdType) :
    ∀ (ops : List CbOp) (c : CallbackCollection), c.Wf → Retired c h →
      ∀ tr ∈ (cbRun c ops).2.2, h ∉ tr
  | [], c, _, _, tr, htr => by simp [cbRun] at htr
  | op :: ops, c, hWf, hret, tr, htr => by
      obtain ⟨hWf', -⟩ := cbStep_preserves c op hWf
      obtain ⟨hret', hnotr⟩ := cbStep_retired c op hWf hret
      simp only [cbRun] at htr
      cases op with
      | addOp f s => exact cbRun_retired h ops _ hWf' hret' tr htr
      | removeOp h' => exact cbRun_retired h ops _ hWf' hret' tr htr
      | callOp msg =>
          rcases List.mem_cons.mp htr with rfl | htr'
          · exact hnotr
          · exact cbRun_retired h ops _ hWf' hret' tr htr'

theorem cbStep_add_some {c : CallbackCollection} {op : CbOp} {h : IdType}
    (hsome : (cbStep c op).2.1 = some h) :
    h = c.next_handle ∧ (cbStep c op).1.next_handle = c.next_handle + 1 := by
  cases op with
  | addOp f s =>
      cases hadd : c.add f s with
      | ok p =>
          obtain ⟨h0, c0⟩ := p
          obtain ⟨he, hn, -⟩ := add_ok_spec hadd
          simp only [cbStep, hadd, Option.some.injEq] at hsome ⊢
          subst hsome
          exact ⟨he, hn⟩
      | error e => simp [cbStep, hadd] at hsome
  | removeOp h' =>
      cases hrem : c.remove h' with
      | ok c' => simp [cbStep, hrem] at hsome
      | error e => simp [cbStep, hrem] at hsome
  | callOp msg => simp [cbStep] at hsome

theorem cbStep_next_mono (c : CallbackCollection) (op : CbOp) :
    c.next_handle ≤ (cbStep c op).1.next_handle := by
  cases op with
  | addOp f s =>
      cases hadd : c.add f s with
      | ok p =>
          obtain ⟨h0, c0⟩ := p
          obtain ⟨-, hn, -⟩ := add_ok_spec hadd
          simp only [cbStep, hadd]
          rw [hn]
          exact le_of_lt (lt_add_one _)
      | error e => simp [cbStep, hadd]
  | removeOp h' =>
      cases hrem : c.remove h' with
      | ok c' => simp [cbStep, hrem, remove_next_eq hrem]
      | error e => simp [cbStep, hrem]
  | callOp msg => simp [cbStep, CallbackCollection.call]

/-- Handles returned by the adds of an operation sequence are strictly
increasing, all at least the starting counter, and all below the final
counter; the counter itself never decreases. -/
theorem cbRun_handles :
    ∀ (ops : List CbOp) (c : CallbackCollection),
      ((cbRun c ops).2.1).Pairwise (· < ·) ∧
      (∀ h ∈ (cbRun c ops).2.1,
        c.next_handle ≤ h ∧ h < (cbRun c ops).1.next_handle) ∧
      c.next_handle ≤ (cbRun c ops).1.next_handle
  | [], c => by simp [cbRun]
  | op :: ops, c => by
      obtain ⟨ihp, ihb, ihm⟩ := cbRun_handles ops (cbStep c op).1
      have hmono := cbStep_next_mono c op
      have hrun1 : (cbRun c (op :: ops)).1 = (cbRun (cbStep c op).1 ops).1 := by
        cases op <;> simp [cbRun]
      have hrun2 : (cbRun c (op :: ops)).2.1 =
          (cbStep c op).2.1.toList ++ (cbRun (cbStep c op).1 ops).2.1 := by
        cases op <;> simp [cbRun]
      rw [hrun1, hrun2]
      cases hopt : (cbStep c op).2.1 with
      | none =>
          refine ⟨by simpa using ihp, ?_, le_trans hmono ihm⟩
          intro h hmem
          simp only [Option.toList_none, List.nil_append] at hmem
          exact ⟨le_trans hmono (ihb h hmem).1, (ihb h hmem).2⟩
      | some h0 =>
          obtain ⟨he0, hn0⟩ := cbStep_add_some hopt
          have hge : ∀ x ∈ (cbRun (cbStep c op).1 ops).2.1, h0 < x := by
            intro x hx
            have hx1 := (ihb x hx).1
            rw [hn0] at hx1
            rw [he0]
            exact lt_of_lt_of_le (lt_add_one _) hx1
          refine ⟨?_, ?_, le_trans hmono ihm⟩
          · simp only [Option.toList_some, List.singleton_append]
            exact List.pairwise_cons.mpr ⟨hge, ihp⟩
          · intro h hmem
            simp only [Option.toList_some, List.singleton_append, List.mem_cons] at hmem
            rcases hmem with rfl | hmem
            · refine ⟨le_of_eq he0.symm, ?_⟩
              have hm1 := ihm
              rw [hn0] at hm1
              rw [he0]
              exact lt_of_lt_of_le (lt_add_one _) hm1
            · refine ⟨?_, (ihb h hmem).2⟩
              have h1 := (ihb h hmem).1
              rw [hn0] at h1
              exact le_trans (le_of_lt (lt_add_one _)) h1

/-! ## Injectivity of handles among live entries -/

/-- In a slot list whose live handles are pairwise increasing, two live
entries with the same handle are the same entry. -/
theorem handle_inj :
    ∀ {l : List (Option MsgCallbackEntry)} {e e' : MsgCallbackEntry},
      (handlesOfSlots l).Pairwise (· < ·) → some e ∈ l → some e' ∈ l →
      e.handle = e'.handle → e = e'
  | [], _, _, _, he, _, _ => by simp at he
  | none :: rest, e, e', hp, he, he', heq => by
      rw [handlesOfSlots_none_cons] at hp
      rcases List.mem_cons.mp he with h1 | h1
      · exact absurd h1 (by simp)
      · rcases List.mem_cons.mp he' with h2 | h2
        · exact absurd h2 (by simp)
        · exact handle_inj hp h1 h2 heq
  | some a :: rest, e, e', hp, he, he', heq => by
      rw [handlesOfSlots_some_cons, List.pairwise_cons] at hp
      rcases List.mem_cons.mp he with h1 | h1 <;> rcases List.mem_cons.mp he' with h2 | h2
      · rw [Option.some_inj.mp h1, Option.some_inj.mp h2]
      · exfalso
        have := hp.1 e'.handle (mem_handlesOfSlots h2)
        rw [Option.some_inj.mp h1] at heq
        rw [← heq] at this
        exact lt_irrefl _ this
      · exfalso
        have := hp.1 e.handle (mem_handlesOfSlots h1)
        rw [Option.some_inj.mp h2] at heq
        rw [heq] at this
        exact lt_irrefl _ this
      · exact handle_inj hp.2 h1 h2 heq

/-! ## Concrete example values used by witnesses and counterexamples -/

/-- A handler that always continues. -/
def hContinue : Handler := fun _ => .ok .ContinueProcessing

/-- A handler that always fails. -/
def hBoom : Handler := fun _ => .error (.OtherMessage "boom")

/-- A message with type 0, sender 0 and empty body. -/
def msg0 : GenericMessage := ⟨⟨⟨0⟩, ⟨0⟩⟩, []⟩

def c1Coll : CallbackCollection :=
  ⟨"example", [some ⟨0, hContinue, none⟩, some ⟨1, hContinue, none⟩], 2⟩

def c1Removed : CallbackCollection :=
  ⟨"example", [some ⟨1, hContinue, none⟩], 2⟩

/-! ## Claim C1 -/

/-- C1: handlers registered in a CallbackCollection are invoked in exactly
registration order — every dispatch trace is a sublist of the live handles in
slot order, which are strictly increasing in registration order — and a
handler removed between two dispatches is never invoked by any later dispatch,
whatever sequence of add, remove and call operations follows the removal. -/
theorem c1_insertion_order_and_removed_never_invoked
    (c : CallbackCollection) (hWf : c.Wf) (msg : GenericMessage)
    (h : IdType) (c' : CallbackCollection) (hrem : c.remove h = .ok c')
    (ops : List CbOp) :
    (c.callTrace msg).Sublist c.handles ∧
    (c.callTrace msg).Pairwise (· < ·) ∧
    ∀ tr ∈ (cbRun c' ops).2.2, h ∉ tr := by
  obtain ⟨hWf', hnot, hlt, -⟩ := remove_ok_spec hWf hrem
  exact ⟨callSlots_trace_sublist msg c.callbacks,
    hWf.1.sublist (callSlots_trace_sublist msg c.callbacks),
    cbRun_retired h ops c' hWf' ⟨hnot, hlt⟩⟩

theorem c1_witness : (0 : IdType) ∉ c1Removed.callTrace msg0 :=
  (c1_insertion_order_and_removed_never_invoked c1Coll (by decide) msg0 0 c1Removed rfl
    [CbOp.callOp msg0]).2.2 (c1Removed.callTrace msg0) (by decide)

/-! ## Claim C4 -/

/-- C4: across any sequence of add, remove and call operations on a
CallbackCollection, the handles returned by successful adds are strictly
increasing — hence pairwise distinct, and distinct from every handle the
collection returned before the sequence started (all of which lay below the
starting counter) — and the allocation counter never decreases. -/
theorem c4_handles_never_reused (c : CallbackCollection) (ops : List CbOp) :
    ((cbRun c ops).2.1).Pairwise (· < ·) ∧
    (∀ h ∈ (cbRun c ops).2.1,
      c.next_handle ≤ h ∧ h < (cbRun c ops).1.next_handle) ∧
    c.next_handle ≤ (cbRun c ops).1.next_handle :=
  cbRun_handles ops c

/-! ## Claim C3 -/

/-- C3 as stated is false: an error from an earlier handler aborts the
dispatch, so a later handler whose sender filter matches is not invoked. In
this collection the filter of the handler with handle 1 matches the message,
yet the trace of the dispatch does not contain 1 (the handler with handle 0
errored first). -/
def c3Coll : CallbackCollection :=
  ⟨"example", [some ⟨0, hBoom, none⟩, some ⟨1, hContinue, none⟩], 2⟩

theorem c3_counterexample :
    id_filter_matches none ⟨msg0.header.sender⟩ = true ∧
    c3Coll.callTrace msg0 = [0] ∧
    (1 : IdType) ∉ c3Coll.callTrace msg0 := by
  refine ⟨rfl, rfl, by decide⟩

/-- C3 (amended): provided the dispatch completes without error, a registered
handler is invoked by call(m) iff its sender filter is None or equals the
message's sender. -/
theorem c3_filter_correctness (c : CallbackCollection) (msg : GenericMessage)
    (hWf : c.Wf) (e : MsgCallbackEntry) (he : some e ∈ c.callbacks)
    (hok : (c.call msg).2 = none) :
    e.handle ∈ c.callTrace msg ↔
      id_filter_matches e.sender_filter ⟨msg.header.sender⟩ = true := by
  have htr : c.callTrace msg = matchingHandles msg c.callbacks :=
    callSlots_trace_of_ok msg c.callbacks hok
  rw [htr]
  constructor
  · intro hmem
    obtain ⟨s, hs, hfs⟩ := List.mem_filterMap.mp hmem
    cases s with
    | none => simp at hfs
    | some e' =>
        rw [Option.some_bind] at hfs
        by_cases hm : id_filter_matches e'.sender_filter ⟨msg.header.sender⟩
        · rw [if_pos hm] at hfs
          have : e' = e := handle_inj hWf.1 hs he (Option.some_inj.mp hfs)
          rw [← this]
          exact hm
        · rw [if_neg hm] at hfs
          exact absurd hfs (by simp)
  · intro hm
    exact List.mem_filterMap.mpr ⟨some e, he, by simp [hm]⟩

def c3wColl : CallbackCollection :=
  ⟨"example",
    [some ⟨0, hContinue, some ⟨⟨0⟩⟩⟩, some ⟨1, hContinue, some ⟨⟨1⟩⟩⟩], 2⟩

theorem c3_witness :
    (0 : IdType) ∈ c3wColl.callTrace msg0 ∧ (1 : IdType) ∉ c3wColl.callTrace msg0 := by
  constructor
  · exact (c3_filter_correctness c3wColl msg0 (by decide) ⟨0, hContinue, some ⟨⟨0⟩⟩⟩
      (List.mem_cons_self _ _) rfl).mpr rfl
  · intro hmem
    have := (c3_filter_correctness c3wColl msg0 (by decide) ⟨1, hContinue, some ⟨⟨1⟩⟩⟩
      (by exact List.mem_cons_of_mem _ (List.mem_cons_self _ _)) rfl).mp hmem
    simp [id_filter_matches, msg0] at this

/-! ## Claim C2 -/

theorem hashLookup_insert (k : String) (v : α) (m : List (String × α)) :
    hashLookup k (hashInsert k v m) = some v := by
  simp [hashLookup, hashInsert, List.find?]

/-- C2: register_type is idempotent. After any successful registration of a
name (Found or NewMapping), every later call with the same name returns Found
with the very same LocalId and leaves the dispatcher — in particular its
types and types_by_name — completely unchanged. -/
theorem c2_register_type_idempotent (d : TypeDispatcher) (name : String)
    (r : RegisterMapping (LocalId TypeId)) (d' : TypeDispatcher)
    (h : d.register_type name = .ok (r, d')) :
    d'.register_type name = .ok (.Found r.get, d') := by
  unfold TypeDispatcher.register_type at h ⊢
  cases hl : d.get_type_id name with
  | some i =>
      rw [hl] at h
      cases h
      rw [hl]
      rfl
  | none =>
      rw [hl] at h
      unfold TypeDispatcher.add_type at h
      by_cases hlen : d.types.length > MAX_VEC_USIZE
      · simp [hlen, Except.map] at h
      · simp only [hlen, if_false, Except.map] at h
        rw [Except.ok.injEq, Prod.mk.injEq] at h
        obtain ⟨hr, hd⟩ := h
        have hlook : d'.get_type_id name = some ⟨⟨(d.types.length : Int)⟩⟩ := by
          rw [← hd]
          exact hashLookup_insert name _ d.types_by_name
        rw [hlook, ← hr]
        rfl

def c2Start : TypeDispatcher := TypeDispatcher.new

def c2Pair : RegisterMapping (LocalId TypeId) × TypeDispatcher :=
  ((c2Start.register_type "vrpn_Tracker Pos_Quat").toOption).getD
    (.Found ⟨⟨0⟩⟩, c2Start)

theorem c2_witness :
    c2Pair.2.register_type "vrpn_Tracker Pos_Quat" = .ok (.Found c2Pair.1.get, c2Pair.2) :=
  c2_register_type_idempotent c2Start "vrpn_Tracker Pos_Quat" c2Pair.1 c2Pair.2 rfl

/-! ## Claim C5 -/

theorem message_type_into_index_out_of_range {v : IdType} {len : Nat}
    (h : v < 0 ∨ (len : Int) ≤ v) :
    message_type_into_index v len = .error (.InvalidId v) := by
  unfold message_type_into_index determine_id_range
  rcases h with h | h
  · rw [if_pos h]
  · by_cases h0 : v < 0
    · rw [if_pos h0]
    · rw [if_neg h0, if_pos h]

theorem message_type_into_index_in_range {v : IdType} {len : Nat}
    (h : ¬(v < 0 ∨ (len : Int) ≤ v)) :
    message_type_into_index v len = .ok v.toNat := by
  push_neg at h
  unfold message_type_into_index determine_id_range
  rw [if_neg (not_lt.mpr h.1), if_neg (not_le.mpr h.2)]

/-- C5 as stated is false in one direction: `call` can also return
`Err(InvalidId)` for an in-range message type, when a handler itself returns
an `InvalidId` error. Here the message type 0 is in range (one type is
registered), yet call returns `Err(InvalidId 42)` raised by the generic
handler. -/
def c5Disp : TypeDispatcher :=
  ⟨[CallbackCollection.new "t"], [("t", ⟨⟨0⟩⟩)],
    ⟨GENERIC, [some ⟨0, fun _ => .error (.InvalidId 42), none⟩], 1⟩, [], []⟩

theorem c5_counterexample :
    ¬(msg0.header.message_type.val < 0 ∨
        ((c5Disp.types.length : Nat) : Int) ≤ msg0.header.message_type.val) ∧
    (c5Disp.call msg0).error = some (.InvalidId 42) := by
  refine ⟨by decide, rfl⟩

/-- C5 (amended): `call` returns the validation error `InvalidId(m.type)` with
no handler invoked and the dispatcher unchanged exactly when the message type
is negative or at least `types.len()`; when the type is in range, the generic
collection runs first — an error there propagates and the type-specific
collection is never invoked — and if the generic collection completes, the
type-specific collection runs and its error (if any) propagates. An
`Err(InvalidId)` for an in-range message can still arise, but only out of a
handler, in which case the trace is nonempty. -/
theorem c5_call_validation_and_order (d : TypeDispatcher) (msg : GenericMessage) :
    ((msg.header.message_type.val < 0 ∨
        (d.types.length : Int) ≤ msg.header.message_type.val) ↔
      d.call msg = ⟨d, [], [], some (.InvalidId msg.header.message_type.val)⟩) ∧
    (¬(msg.header.message_type.val < 0 ∨
        (d.types.length : Int) ≤ msg.header.message_type.val) →
      (∀ e, (d.generic_callbacks.call msg).2 = some e →
        (d.call msg).typedTrace = [] ∧ (d.call msg).error = some e) ∧
      ((d.generic_callbacks.call msg).2 = none →
        (d.call msg).genericTrace = matchingHandles msg d.generic_callbacks.callbacks ∧
        (d.call msg).typedTrace =
          (d.types.getD msg.header.message_type.val.toNat default).callTrace msg ∧
        (d.call msg).error =
          ((d.types.getD msg.header.message_type.val.toNat default).call msg).2)) := by
  constructor
  · constructor
    · intro hout
      unfold TypeDispatcher.call
      rw [message_type_into_index_out_of_range hout]
    · intro heq
      by_contra hout
      cases hg : (d.generic_callbacks.call msg).2 with
      | some e =>
          have h1 : d.generic_callbacks.callTrace msg = [] := by
            have h0 := congrArg DispatchResult.genericTrace heq
            simp only [TypeDispatcher.call, message_type_into_index_in_range hout, hg] at h0
            exact h0
          have herr : (callSlots msg d.generic_callbacks.callbacks).error ≠ none := by
            rw [show (callSlots msg d.generic_callbacks.callbacks).error =
                (d.generic_callbacks.call msg).2 from rfl, hg]
            simp
          exact callSlots_trace_ne_nil_of_error msg d.generic_callbacks.callbacks herr h1
      | none =>
          have h1 : (d.types.getD msg.header.message_type.val.toNat default).callTrace msg
              = [] := by
            have h0 := congrArg DispatchResult.typedTrace heq
            simp only [TypeDispatcher.call, message_type_into_index_in_range hout, hg] at h0
            exact h0
          have h2 : ((d.types.getD msg.header.message_type.val.toNat default).call msg).2 =
              some (.InvalidId msg.header.message_type.val) := by
            have h0 := congrArg DispatchResult.error heq
            simp only [TypeDispatcher.call, message_type_into_index_in_range hout, hg] at h0
            exact h0
          have herr : (callSlots msg
              (d.types.getD msg.header.message_type.val.toNat default).callbacks).error
              ≠ none := by
            rw [show (callSlots msg
                (d.types.getD msg.header.message_type.val.toNat default).callbacks).error =
                ((d.types.getD msg.header.message_type.val.toNat default).call msg).2 from rfl,
              h2]
            simp
          exact callSlots_trace_ne_nil_of_error msg
            (d.types.getD msg.header.message_type.val.toNat default).callbacks herr h1
  · intro hin
    refine ⟨?_, ?_⟩
    · intro e hg
      constructor
      · show (d.call msg).typedTrace = []
        simp only [TypeDispatcher.call, message_type_into_index_in_range hin, hg]
      · show (d.call msg).error = some e
        simp only [TypeDispatcher.call, message_type_into_index_in_range hin, hg]
    · intro hg
      refine ⟨?_, ?_, ?_⟩
      · show (d.call msg).genericTrace = _
        simp only [TypeDispatcher.call, message_type_into_index_in_range hin, hg]
        exact callSlots_trace_of_ok msg d.generic_callbacks.callbacks hg
      · show (d.call msg).typedTrace = _
        simp only [TypeDispatcher.call, message_type_into_index_in_range hin, hg]
      · show (d.call msg).error = _
        simp only [TypeDispatcher.call, message_type_into_index_in_range hin, hg]

theorem c5_witness :
    TypeDispatcher.new.call ⟨⟨⟨-1⟩, ⟨0⟩⟩, []⟩ =
      ⟨TypeDispatcher.new, [], [], some (.InvalidId (-1))⟩ :=
  (c5_call_validation_and_order TypeDispatcher.new ⟨⟨⟨-1⟩, ⟨0⟩⟩, []⟩).1.mp (Or.inl (by decide))

/-! ## Claim C6 -/

/-- C6 describes intended behaviour the code does not implement: for a typed
handler whose static MESSAGE_IDENTIFIER is a reserved (negative) system
TypeId, add_typed_handler does not succeed — it always fails with
`InvalidId`, because `add_handler` validates the filter through
`message_type_into_index`, which rejects every negative id. -/
theorem c6_system_id_rejected (d : TypeDispatcher) (id : TypeId) (hneg : id.val < 0)
    (handler : Handler) (sf : Option (LocalId SenderId)) :
    d.add_typed_handler (.SystemMessageId id) handler sf = .error (.InvalidId id.val) := by
  show d.add_handler handler (some ⟨id⟩) sf = Except.error (Error.InvalidId id.val)
  simp only [TypeDispatcher.add_handler]
  rw [message_type_into_index_out_of_range (Or.inl hneg)]

theorem c6_witness :
    TypeDispatcher.new.add_typed_handler (.SystemMessageId ⟨-1⟩) hContinue none =
      .error (.InvalidId (-1)) :=
  c6_system_id_rejected TypeDispatcher.new ⟨-1⟩ (by decide) hContinue none

/-! ## Claim C7 -/

def fullChannelEp : EndpointBufferState := ⟨⟨[], 0⟩, none⟩

def roomEp : EndpointBufferState := ⟨⟨[], 1⟩, none⟩

def reliableClass : ClassOfService := ⟨true, false⟩

/-- C7 as stated is false in its error kind: on a full send buffer the source
returns `Err(OtherMessage("Didn't have room in send buffer"))`, which is not
the `SendBufferFull` error kind the claim names. -/
theorem c7_counterexample :
    fullChannelEp.buffer_generic_message msg0 reliableClass =
      .error (.OtherMessage "Didn't have room in send buffer") ∧
    Error.OtherMessage "Didn't have room in send buffer" ≠ Error.SendBufferFull :=
  ⟨rfl, by decide⟩

/-- C7 (amended): when the class of service contains RELIABLE or the endpoint
has no low-latency channel, buffer_generic_message routes the message to the
reliable channel: if the send buffer has room the message is appended to it,
and otherwise the call fails with `Err(OtherMessage("Didn't have room in send
buffer"))` — the implementation's encoding of the transient send-buffer-full
condition — leaving the channel state unchanged and the message unsent. -/
theorem c7_reliable_routing (ep : EndpointBufferState) (msg : GenericMessage)
    (cos : ClassOfService)
    (h : cos.containsReliable = true ∨ ep.low_latency_channel = none) :
    (ep.reliable_channel.sendBuffer.length < ep.reliable_channel.capacity ∧
      ep.buffer_generic_message msg cos =
        .ok ⟨⟨ep.reliable_channel.sendBuffer ++ [msg], ep.reliable_channel.capacity⟩,
          ep.low_latency_channel⟩) ∨
    (¬ep.reliable_channel.sendBuffer.length < ep.reliable_channel.capacity ∧
      ep.buffer_generic_message msg cos =
        .error (.OtherMessage "Didn't have room in send buffer")) := by
  have hcond : (cos.containsReliable || ep.low_latency_channel.isNone) = true := by
    rcases h with h | h
    · simp [h]
    · simp [h]
  by_cases hlen : ep.reliable_channel.sendBuffer.length < ep.reliable_channel.capacity
  · left
    refine ⟨hlen, ?_⟩
    have hs : ep.reliable_channel.start_send msg =
        (.Ready, ⟨ep.reliable_channel.sendBuffer ++ [msg], ep.reliable_channel.capacity⟩) := by
      unfold EndpointChannel.start_send
      rw [if_pos hlen]
    unfold EndpointBufferState.buffer_generic_message
    rw [hcond]
    simp only [if_true, hs]
  · right
    refine ⟨hlen, ?_⟩
    have hs : ep.reliable_channel.start_send msg = (.NotReady msg, ep.reliable_channel) := by
      unfold EndpointChannel.start_send
      rw [if_neg hlen]
    unfold EndpointBufferState.buffer_generic_message
    rw [hcond]
    simp only [if_true, hs]

theorem c7_witness :
    (roomEp.reliable_channel.sendBuffer.length < roomEp.reliable_channel.capacity ∧
      roomEp.buffer_generic_message msg0 reliableClass =
        .ok ⟨⟨roomEp.reliable_channel.sendBuffer ++ [msg0],
          roomEp.reliable_channel.capacity⟩, roomEp.low_latency_channel⟩) ∨
    (¬roomEp.reliable_channel.sendBuffer.length < roomEp.reliable_channel.capacity ∧
      roomEp.buffer_generic_message msg0 reliableClass =
        .error (.OtherMessage "Didn't have room in send buffer")) :=
  c7_reliable_routing roomEp msg0 reliableClass (Or.inl rfl)

/-! ## Claim C8 -/

/-- C8 describes intended behaviour the code does not implement: draining a
`DisconnectMessage` from the system queue changes nothing — the match arm only
prints a log line — so no shutdown is scheduled and, with the stream still
open, poll_endpoint returns NotReady on this and every later progress step,
with the dispatcher and translation tables untouched, instead of closing the
endpoint. -/
theorem c8_disconnect_only_logged (t : TranslationTables) (d : TypeDispatcher) :
    pollEndpoint ⟨t, [SystemMessage.DisconnectMessage]⟩ d false =
      .ok (.NotReady, ⟨t, []⟩, d) ∧
    pollEndpoint ⟨t, []⟩ d false = .ok (.NotReady, ⟨t, []⟩, d) :=
  ⟨rfl, rfl⟩

/-! ## Claim C9 -/

def w9start : AcceptorWorld := ⟨true, 0, []⟩

/-- The world after the acceptor spawned one handshake task and the connection
was then dropped. -/
def w9dead : AcceptorWorld := accRun w9start [AccStep.poll 1, AccStep.dropConn]

/-- C9's universal part is false: a handshake task spawned while the
connection was alive still appends its endpoint to the endpoints vector (the
task captured its own Arc clone of the vector) when it completes after the
connection has been dropped — an endpoint is delivered after the
back-reference is broken. -/
theorem c9_counterexample :
    w9dead.connAlive = false ∧ w9dead.endpoints = [] ∧
    (accStep w9dead (.finishHandshake true)).endpoints = [some ()] := by
  decide

/-- C9 (amended): once the connection is dropped, the acceptor's next poll
returns Ready(None) at once, spawning nothing and leaving the world unchanged;
and if no handshake task was in flight at the drop, no endpoint is ever
delivered afterwards — every later sequence of events leaves the endpoints
vector unchanged and the connection dead. A task already in flight, however,
may still deliver its endpoint (see the counterexample). -/
theorem c9_acceptor_terminates_after_drop (w : AcceptorWorld) (n : Nat)
    (hdead : w.connAlive = false) :
    acceptorPoll w n = (.ReadyNone, w) ∧
    (w.pending = 0 →
      ∀ steps : List AccStep, (accRun w steps).endpoints = w.endpoints ∧
        (accRun w steps).connAlive = false) := by
  refine ⟨by unfold acceptorPoll; rw [hdead]; rfl, ?_⟩
  intro hpend steps
  induction steps with
  | nil => exact ⟨rfl, hdead⟩
  | cons s rest ih =>
      have hsw : accStep w s = w := by
        cases s with
        | poll m => simp [accStep, acceptorPoll, hdead]
        | dropConn =>
            obtain ⟨a, p, e⟩ := w
            simp only [accStep]
            rw [show a = false from hdead]
        | finishHandshake ok => simp [accStep, hpend]
      rw [show accRun w (s :: rest) = accRun (accStep w s) rest from rfl, hsw]
      exact ih

def w9quiet : AcceptorWorld := accStep w9dead (.finishHandshake true)

theorem c9_witness :
    (accRun w9quiet [AccStep.poll 2, AccStep.finishHandshake true]).endpoints =
      w9quiet.endpoints :=
  ((c9_acceptor_terminates_after_drop w9quiet 3 (by decide)).2 (by decide)
    [AccStep.poll 2, AccStep.finishHandshake true]).1

/-! ## Claim C10 -/

/-- C10: the endpoint id-mapping accessors are total and collapse every error
from the underlying translation-table lookup to None, making an error
indistinguishable from an unknown remote id at the public interface; on a
successful lookup the result is passed through unchanged. -/
theorem c10_lookup_errors_to_none (e : Error) (v : Option IdType)
    (ep : EndpointPollState) (remote : IdType) :
    endpointMapToLocalId (.error e) = none ∧
    endpointMapToLocalId (.ok v) = v ∧
    endpointMapToLocalId (.error e) = endpointMapToLocalId (.ok none) ∧
    ep.map_to_local_id remote =
      endpointMapToLocalId (ep.translation.types.map_to_local_id remote) :=
  ⟨rfl, rfl, rfl, rfl⟩

end Vrpn
